import Mathlib

/-!
Verification of the grocery-assistant orchestration engine
(`action.py`, `memory.py`, `decision.py`, `main.py`, `recipe_mcp_server.py`)
against its natural-language specification.

The development shallowly embeds the Python sources:
* JSON texts are modelled by the inductive `JVal`; `json.loads` is modelled by
  the executable fuelled parser `parseJson`, and `model_dump_json` by the
  canonical serializer `dumpJ` (whitespace-free, escaping `"`, `\` and control
  characters; numeric literals kept as raw text so no floating point enters
  the model).
* The memory dictionary of `MemoryLayer` is the structure `Mem`; keyword
  updates are lists of `MemUpd` values, where unknown keys are ignored just as
  `update_memory` ignores them.
* Stateful and I/O behaviour of `ActionLayer.execute_action` is made explicit:
  stdin is a finite list of lines (its end models `EOFError`), every external
  call is an `Except` value supplied by an `Oracle`, and exceptions inside the
  dispatcher are represented by the branch the corresponding `except` handler
  takes.  Logging and monetary float formatting are out of scope; money is
  carried in integer cents.
-/

namespace GroceryAssistant

/-! ## JSON values -/

/-- A parsed JSON value (the result of `json.loads`).  Numeric literals keep
their source text so the model never computes with floating point. -/
inductive JVal where
  | jnull : JVal
  | jbool : Bool → JVal
  | jnum : String → JVal
  | jstr : String → JVal
  | jarr : List JVal → JVal
  | jobj : List (String × JVal) → JVal
deriving Repr

/-- Key lookup in an object.  A Python `dict` built by `json.loads` keeps the
last duplicate of a key, so lookup scans the reversed field list. -/
def jlookup (fields : List (String × JVal)) (k : String) : Option JVal :=
  (fields.reverse.find? (fun p => p.1 == k)).map Prod.snd

/-- `k in parsed_dict` on the Python side. -/
def jhasKey (fields : List (String × JVal)) (k : String) : Bool :=
  fields.any (fun p => p.1 == k)

/-- Whether a numeric literal denotes zero (Python truthiness of numbers). -/
def numLitIsZero (lit : String) : Bool :=
  let mantissa := lit.data.takeWhile (fun c => !(c == 'e') && !(c == 'E'))
  (mantissa.filter Char.isDigit).all (fun c => c == '0')

/-- Python truthiness of a JSON value. -/
def jtruthy : JVal → Bool
  | .jnull => false
  | .jbool b => b
  | .jnum lit => !(numLitIsZero lit)
  | .jstr s => !(s == "")
  | .jarr xs => !xs.isEmpty
  | .jobj fs => !fs.isEmpty

/-! ## JSON parser (model of `json.loads`) -/

def lbraceC : Char := Char.ofNat 123

def rbraceC : Char := Char.ofNat 125

def isWsC (c : Char) : Bool := c == ' ' || c == '\n' || c == '\t' || c == '\x0d'

def skipWs : List Char → List Char
  | [] => []
  | c :: cs => if isWsC c then skipWs cs else c :: cs

def hexDigVal (c : Char) : Option Nat :=
  if '0' ≤ c ∧ c ≤ '9' then some (c.toNat - 48)
  else if 'a' ≤ c ∧ c ≤ 'f' then some (c.toNat - 87)
  else if 'A' ≤ c ∧ c ≤ 'F' then some (c.toNat - 55)
  else none

def hexDigChar (n : Nat) : Char :=
  if n < 10 then Char.ofNat (48 + n) else Char.ofNat (87 + n)

def unescapeC (e : Char) : Option Char :=
  if e == '"' then some '"'
  else if e == '\\' then some '\\'
  else if e == '/' then some '/'
  else if e == 'b' then some (Char.ofNat 8)
  else if e == 'f' then some (Char.ofNat 12)
  else if e == 'n' then some '\n'
  else if e == 'r' then some (Char.ofNat 13)
  else if e == 't' then some '\t'
  else none

/-- Parse the body of a JSON string literal (after the opening quote), up to
and including the closing quote; returns the decoded characters and the rest
of the input. -/
def parseStrBody : List Char → Option (List Char × List Char)
  | [] => none
  | c :: cs =>
    if c == '"' then some ([], cs)
    else if c == '\\' then
      match cs with
      | [] => none
      | e :: cs' =>
        if e == 'u' then
          match cs' with
          | h1 :: h2 :: h3 :: h4 :: cs'' =>
            match hexDigVal h1, hexDigVal h2, hexDigVal h3, hexDigVal h4 with
            | some a, some b, some c2, some d =>
              match parseStrBody cs'' with
              | some (s, r) => some (Char.ofNat (4096 * a + 256 * b + 16 * c2 + d) :: s, r)
              | none => none
            | _, _, _, _ => none
          | _ => none
        else
          match unescapeC e with
          | some c' =>
            match parseStrBody cs' with
            | some (s, r) => some (c' :: s, r)
            | none => none
          | none => none
    else
      match parseStrBody cs with
      | some (s, r) => some (c :: s, r)
      | none => none

def isNumTailC (c : Char) : Bool :=
  c.isDigit || c == '.' || c == '+' || c == '-' || c == 'e' || c == 'E'

mutual

/-- Fuelled JSON value parser.  Number lexing is lenient (it accepts some
texts `json.loads` would reject), which only widens the domain on inputs no
capability produces. -/
def parseV : Nat → List Char → Option (JVal × List Char)
  | 0, _ => none
  | n + 1, cs =>
    match skipWs cs with
    | [] => none
    | c :: cs' =>
      if c == '"' then
        match parseStrBody cs' with
        | some (s, r) => some (JVal.jstr (String.mk s), r)
        | none => none
      else if c == lbraceC then
        match parseObjItems n cs' with
        | some (fs, r) => some (JVal.jobj fs, r)
        | none => none
      else if c == '[' then
        match parseArrItems n cs' with
        | some (vs, r) => some (JVal.jarr vs, r)
        | none => none
      else if c == 't' then
        match cs' with
        | 'r' :: 'u' :: 'e' :: r => some (JVal.jbool true, r)
        | _ => none
      else if c == 'f' then
        match cs' with
        | 'a' :: 'l' :: 's' :: 'e' :: r => some (JVal.jbool false, r)
        | _ => none
      else if c == 'n' then
        match cs' with
        | 'u' :: 'l' :: 'l' :: r => some (JVal.jnull, r)
        | _ => none
      else if c.isDigit || c == '-' then
        let p := List.span isNumTailC cs'
        some (JVal.jnum (String.mk (c :: p.1)), p.2)
      else none

/-- Array items, just after the opening bracket. -/
def parseArrItems : Nat → List Char → Option (List JVal × List Char)
  | 0, _ => none
  | n + 1, cs =>
    match skipWs cs with
    | [] => none
    | c :: r =>
      if c == ']' then some ([], r)
      else
        match parseV n (c :: r) with
        | some (v, cs₂) =>
          match parseArrTail n cs₂ with
          | some (vs, r₂) => some (v :: vs, r₂)
          | none => none
        | none => none

/-- After an array element: either the closing bracket or a comma and more
elements. -/
def parseArrTail : Nat → List Char → Option (List JVal × List Char)
  | 0, _ => none
  | n + 1, cs =>
    match skipWs cs with
    | [] => none
    | c :: r =>
      if c == ']' then some ([], r)
      else if c == ',' then
        match parseV n r with
        | some (v, cs₂) =>
          match parseArrTail n cs₂ with
          | some (vs, r₂) => some (v :: vs, r₂)
          | none => none
        | none => none
      else none

/-- Object fields, just after the opening brace. -/
def parseObjItems : Nat → List Char → Option (List (String × JVal) × List Char)
  | 0, _ => none
  | n + 1, cs =>
    match skipWs cs with
    | [] => none
    | c :: r =>
      if c == rbraceC then some ([], r)
      else if c == '"' then
        match parseStrBody r with
        | some (k, r₂) =>
          match parseColonVal n r₂ with
          | some (v, r₃) =>
            match parseObjTail n r₃ with
            | some (fs, r₄) => some ((String.mk k, v) :: fs, r₄)
            | none => none
          | none => none
        | none => none
      else none

/-- A colon followed by a value. -/
def parseColonVal : Nat → List Char → Option (JVal × List Char)
  | 0, _ => none
  | n + 1, cs =>
    match skipWs cs with
    | [] => none
    | c :: r => if c == ':' then parseV n r else none

/-- After an object field: either the closing brace or a comma and another
`"key": value` pair. -/
def parseObjTail : Nat → List Char → Option (List (String × JVal) × List Char)
  | 0, _ => none
  | n + 1, cs =>
    match skipWs cs with
    | [] => none
    | c :: r =>
      if c == rbraceC then some ([], r)
      else if c == ',' then
        match skipWs r with
        | [] => none
        | c₂ :: r₂ =>
          if c₂ == '"' then
            match parseStrBody r₂ with
            | some (k, r₃) =>
              match parseColonVal n r₃ with
              | some (v, r₄) =>
                match parseObjTail n r₄ with
                | some (fs, r₅) => some ((String.mk k, v) :: fs, r₅)
                | none => none
              | none => none
            | none => none
          else none
      else none

end

/-- Model of `json.loads`: parse a whole text, requiring only trailing
whitespace after the value. -/
def parseJson (s : String) : Option JVal :=
  match parseV (2 * s.data.length + 2) s.data with
  | some (v, rest) => if (skipWs rest).isEmpty then some v else none
  | none => none

/-! ## JSON serializer (model of `model_dump_json` / `json.dumps`) -/

/-- Escape the characters of a string for a JSON string literal. -/
def quoteBodyC : List Char → List Char
  | [] => []
  | c :: cs =>
    (if c == '"' then ['\\', '"']
     else if c == '\\' then ['\\', '\\']
     else if c.toNat < 32 then
       ['\\', 'u', '0', '0', hexDigChar (c.toNat / 16), hexDigChar (c.toNat % 16)]
     else [c]) ++ quoteBodyC cs

def quoteC (cs : List Char) : List Char := '"' :: (quoteBodyC cs ++ ['"'])

mutual

def dumpV : JVal → List Char
  | .jnull => ['n', 'u', 'l', 'l']
  | .jbool true => ['t', 'r', 'u', 'e']
  | .jbool false => ['f', 'a', 'l', 's', 'e']
  | .jnum lit => lit.data
  | .jstr s => quoteC s.data
  | .jarr xs => '[' :: (dumpItems xs ++ [']'])
  | .jobj fs => lbraceC :: (dumpFields fs ++ [rbraceC])

def dumpItems : List JVal → List Char
  | [] => []
  | [x] => dumpV x
  | x :: xs => dumpV x ++ ',' :: dumpItems xs

def dumpFields : List (String × JVal) → List Char
  | [] => []
  | [(k, v)] => quoteC k.data ++ ':' :: dumpV v
  | (k, v) :: fs => quoteC k.data ++ ':' :: dumpV v ++ ',' :: dumpFields fs

end

/-- Serialize a JSON value to canonical text. -/
def dumpJ (v : JVal) : String := String.mk (dumpV v)

/-! ## String helpers

Kernel-computable counterparts of the Python string methods the sources use
(`String.trim`, `String.toLower` … are opaque to kernel reduction, so the
embedding defines its own over `List Char`). -/

/-- The whitespace set of Python `str.strip`. -/
def isSpaceC (c : Char) : Bool :=
  c == ' ' || c == '\t' || c == '\n' || c == '\x0d' || c == Char.ofNat 11 || c == Char.ofNat 12

def stripC (cs : List Char) : List Char :=
  ((cs.dropWhile isSpaceC).reverse.dropWhile isSpaceC).reverse

/-- Python `str.strip`. -/
def strip (s : String) : String := String.mk (stripC s.data)

/-- Python `str.lower`, restricted to ASCII (all repository texts are ASCII). -/
def strLower (s : String) : String := String.mk (s.data.map Char.toLower)

/-- Python `str.upper`, restricted to ASCII. -/
def strUpper (s : String) : String := String.mk (s.data.map Char.toUpper)

def strStartsWith (s pat : String) : Bool := pat.data.isPrefixOf s.data

def strEndsWith (s pat : String) : Bool := pat.data.reverse.isPrefixOf s.data.reverse

def strDrop (s : String) (n : Nat) : String := String.mk (s.data.drop n)

def strDropRight (s : String) (n : Nat) : String := String.mk (s.data.take (s.data.length - n))

/-- Python `str.split(sep)` for a one-character separator. -/
def splitOnCharC (sep : Char) : List Char → List (List Char)
  | [] => [[]]
  | c :: rest =>
    let r := splitOnCharC sep rest
    if c == sep then [] :: r
    else
      match r with
      | h :: t => (c :: h) :: t
      | [] => [[c]]

/-! ## Response envelope decoder (`ActionLayer.get_recipe`, action.py:37-120) -/

/-- `models.GetRecipeOutput`: the success payload of the recipe capability.
(The Python model declares exactly these two fields; in particular there is
no `recipe_name` field, which matters at action.py:550.) -/
structure GetRecipeOutputL where
  required_ingredients : List String
  recipe_steps : List String
deriving Repr, DecidableEq

/-- The two exception families `get_recipe` can raise: `RecipeServiceError`
and `ValueError`.  Unexpected exceptions are re-wrapped as
`RecipeServiceError` by action.py:118-120, so they appear as `serviceError`
here. -/
inductive RecipeErr where
  | serviceError (msg : String)
  | valueError (msg : String)
deriving Repr, DecidableEq

/-- pydantic v2 string validation: only JSON strings validate as `str`. -/
def asString : JVal → Option String
  | .jstr s => some s
  | _ => none

/-- pydantic v2 validation of `List[str]`. -/
def asStringList : JVal → Option (List String)
  | .jarr xs => xs.mapM asString
  | _ => none

/-- `GetRecipeOutput.model_validate`: requires the two declared fields and
ignores extra keys (pydantic's default config). -/
def validateGetRecipeOutput : JVal → Option GetRecipeOutputL
  | .jobj fs =>
    match jlookup fs "required_ingredients", jlookup fs "recipe_steps" with
    | some ri, some rs =>
      match asStringList ri, asStringList rs with
      | some l1, some l2 => some ⟨l1, l2⟩
      | _, _ => none
    | _, _ => none
  | _ => none

/-- How a JSON value is rendered inside an f-string message; only the string
case is exercised by real payloads, other values are approximated by their
serialization. -/
def jvalToText : JVal → String
  | .jstr s => s
  | v => dumpJ v

/-- `parsed_content.get('message', 'Unknown recipe service error')`. -/
def errMessage (fs : List (String × JVal)) : String :=
  match jlookup fs "message" with
  | some v => jvalToText v
  | none => "Unknown recipe service error"

/-- `parsed_content.get('message', parsed_content.get('error', '...'))`
(action.py:102). -/
def errMessageOrError (fs : List (String × JVal)) : String :=
  match jlookup fs "message" with
  | some v => jvalToText v
  | none =>
    match jlookup fs "error" with
    | some v => jvalToText v
    | none => "Unknown recipe service error"

/-- First phase of the decode (action.py:69-90): outer error marker check and
one level of `content` unwrapping.  Exceptions that escape to the generic
handler at action.py:118 (IndexError on an empty content list, AttributeError
on a non-dict element, TypeError from `json.loads` on a non-string) become
`serviceError` values, exactly as that handler re-wraps them. -/
def decodeUnwrap (parsed : JVal) : Except RecipeErr JVal :=
  match parsed with
  | .jobj fs =>
    if jhasKey fs "error_type" then
      .error (.serviceError ("Recipe service error: " ++ errMessage fs))
    else
      match jlookup fs "content" with
      | some (.jarr (first :: _)) =>
        match first with
        | .jobj ffs =>
          match jlookup ffs "text" with
          | some inner =>
            if jtruthy inner then
              match inner with
              | .jstr s =>
                match parseJson s with
                | some (.jobj ifs) =>
                  if jhasKey ifs "error_type" then
                    .error (.serviceError ("Recipe service error: " ++ errMessage ifs))
                  else .ok (.jobj ifs)
                | some w => .ok w
                | none => .ok (.jstr s)
              | _ =>
                .error (.serviceError
                  "Unexpected error getting recipe: the JSON object must be str, bytes or bytearray")
            else .ok parsed
          | none => .ok parsed
        | _ =>
          .error (.serviceError
            "Unexpected error getting recipe: content item has no attribute get")
      | some (.jarr []) =>
        .error (.serviceError "Unexpected error getting recipe: list index out of range")
      | _ => .ok parsed
  | _ => .ok parsed

/-- Second phase (action.py:92-105): validate against `GetRecipeOutput`, with
the error-marker re-check on validation failure. -/
def decodeValidate (pc : JVal) : Except RecipeErr GetRecipeOutputL :=
  match validateGetRecipeOutput pc with
  | some out => .ok out
  | none =>
    match pc with
    | .jobj fs =>
      if jhasKey fs "error_type" || jhasKey fs "error" then
        .error (.serviceError ("Recipe service error: " ++ errMessageOrError fs))
      else .error (.valueError "Invalid recipe format")
    | _ => .error (.valueError "Invalid recipe format")

/-- Decode one capability response text (action.py:63-110): parse, check the
error marker, unwrap one serialized `content` level, validate. -/
def get_recipe_decode (content : String) : Except RecipeErr GetRecipeOutputL :=
  match parseJson content with
  | none => .error (.valueError "Invalid JSON in recipe service response")
  | some parsed =>
    match decodeUnwrap parsed with
    | .error e => .error e
    | .ok pc => decodeValidate pc

/-- `mcp.types.TextContent` as used by the transport. -/
structure TextContentL where
  type : String := "text"
  text : String
deriving Repr, DecidableEq

/-- `ActionLayer.get_recipe` (action.py:37-120): the transport call either
raises (modelled by `.error`, re-wrapped at action.py:118-120) or yields a
content list whose first item's text is decoded. -/
def get_recipe (call : Except String (List TextContentL)) : Except RecipeErr GetRecipeOutputL :=
  match call with
  | .error e => .error (.serviceError ("Unexpected error getting recipe: " ++ e))
  | .ok [] => .error (.valueError "Empty content array in recipe service response")
  | .ok (c :: _) =>
    if c.text == "" then .error (.valueError "Empty text content in recipe service response")
    else get_recipe_decode c.text

/-! ## Task state store (`MemoryLayer`, memory.py:11-61) -/

/-- The `order_details` sub-dictionary `{items, total}`; an empty dict reads
through `.get` as no items and total `0`.  Money is kept in integer cents
(one item costs 399 cents, action.py:706) so no floating point enters the
model. -/
structure OrderDetailsL where
  items : List String := []
  totalCents : Nat := 0
deriving Repr, DecidableEq

/-- The memory dictionary initialized at memory.py:14-35 (disk persistence is
out of scope; the spec has each task start from the defaults). -/
structure Mem where
  dish_name : Option String := none
  required_ingredients : List String := []
  missing_ingredients : List String := []
  available_ingredients : List String := []
  recipe_steps : List String := []
  order_placed : Bool := false
  order_id : Option String := none
  order_details : OrderDetailsL := {}
  email_sent : Bool := false
  user_email : Option String := none
  current_state : String := "initial"
  last_action : Option String := none
  last_action_status : Option String := none
  retries : Nat := 0
  last_error : Option String := none
deriving Repr, DecidableEq

def initMem : Mem := {}

/-- One keyword argument to `update_memory`: either a known memory key with
its new value, or an unknown key (which memory.py:54 warns about and
ignores). -/
inductive MemUpd where
  | dish_name (v : Option String)
  | required_ingredients (v : List String)
  | missing_ingredients (v : List String)
  | available_ingredients (v : List String)
  | recipe_steps (v : List String)
  | order_placed (v : Bool)
  | order_id (v : Option String)
  | order_details (v : OrderDetailsL)
  | email_sent (v : Bool)
  | user_email (v : Option String)
  | current_state (v : String)
  | last_action (v : Option String)
  | last_action_status (v : Option String)
  | retries (v : Nat)
  | last_error (v : Option String)
  | unknownKey (k : String)
deriving Repr, DecidableEq

/-- Apply one keyword argument (the loop body at memory.py:50-54). -/
def applyUpd (m : Mem) : MemUpd → Mem
  | .dish_name v => { m with dish_name := v }
  | .required_ingredients v => { m with required_ingredients := v }
  | .missing_ingredients v => { m with missing_ingredients := v }
  | .available_ingredients v => { m with available_ingredients := v }
  | .recipe_steps v => { m with recipe_steps := v }
  | .order_placed v => { m with order_placed := v }
  | .order_id v => { m with order_id := v }
  | .order_details v => { m with order_details := v }
  | .email_sent v => { m with email_sent := v }
  | .user_email v => { m with user_email := v }
  | .current_state v => { m with current_state := v }
  | .last_action v => { m with last_action := v }
  | .last_action_status v => { m with last_action_status := v }
  | .retries v => { m with retries := v }
  | .last_error v => { m with last_error := v }
  | .unknownKey _ => m

/-- `MemoryLayer.update_memory` (memory.py:38-57): the loop over the keyword
arguments sets each supplied known field in order, ignores unknown keys, and
performs no validation of any kind. -/
def update_memory (m : Mem) : List MemUpd → Mem
  | [] => m
  | u :: us => update_memory (applyUpd m u) us

/-! ## Pantry check (`ActionLayer.check_pantry_items`, action.py:976-1041) -/

/-- The stdin capture loop at action.py:991-1000: each line is stripped and
lowercased, `done` stops, empty items are skipped, end of input is the
`EOFError` break. -/
def pantryItemsOf : List String → List String
  | [] => []
  | line :: rest =>
    let item := strLower (strip line)
    if item == "done" then []
    else if item == "" then pantryItemsOf rest
    else item :: pantryItemsOf rest

/-- Python substring containment `a in b` on character lists. -/
def isSubstrC (needle hay : List Char) : Bool :=
  hay.tails.any (fun t => needle.isPrefixOf t)

/-- The matching condition at action.py:1013:
`required.lower() in pantry_item or pantry_item in required.lower()`. -/
def ingredient_match (pantry_items : List String) (required : String) : Bool :=
  pantry_items.any (fun pantry_item =>
    isSubstrC (strLower required).data pantry_item.data ||
    isSubstrC pantry_item.data (strLower required).data)

/-- The comparison loop at action.py:1008-1018, appending each required
ingredient to exactly one of the two lists. -/
def pantryLoop (pantry_items : List String) : List String → List String × List String
  | [] => ([], [])
  | r :: rs =>
    let (av, ms) := pantryLoop pantry_items rs
    if ingredient_match pantry_items r then (r :: av, ms) else (av, r :: ms)

structure PantryCheckResult where
  available_ingredients : List String
  missing_ingredients : List String
  message : String
deriving Repr, DecidableEq

/-- `ActionLayer.check_pantry_items` as a function of the required list and
the stdin lines (the memory write it performs is applied by the caller model,
see `execute_action`). -/
def check_pantry_items (required : List String) (stdinLines : List String) :
    PantryCheckResult :=
  let pantry := pantryItemsOf stdinLines
  let (available, missing) := pantryLoop pantry required
  let message :=
    if !missing.isEmpty then
      "You have " ++ toString available.length ++ " of " ++ toString required.length ++
        " required ingredients.\n" ++ "Missing ingredients:\n" ++
        String.intercalate "\n" (missing.map (fun ing => "- " ++ ing))
    else "You have all required ingredients!"
  ⟨available, missing, message⟩

/-! ## Small dispatcher helpers -/

/-- `ActionLayer.check_order_status` (action.py:463-490); `if not order_id`
treats the empty string like a missing argument. -/
structure CheckOrderStatusOutputL where
  order_exists : Bool
  order_id : Option String
  message : String
deriving Repr, DecidableEq

def check_order_status (m : Mem) (order_id_arg : Option String) : CheckOrderStatusOutputL :=
  let oid := match order_id_arg with
    | some s => if s == "" then m.order_id else some s
    | none => m.order_id
  let order_exists := match oid, m.order_id with
    | some a, some b => a == b
    | _, _ => false
  let message :=
    if order_exists then "Order " ++ (oid.getD "") ++ " found in system."
    else "No matching order found."
  ⟨order_exists, if order_exists then oid else none, message⟩

/-- The email validity test at action.py:1055:
`email and "@" in email and "." in email.split("@")[1]`. -/
def emailValid (email : String) : Bool :=
  if email == "" then false
  else
    match splitOnCharC '@' email.data with
    | _ :: part1 :: _ => part1.any (fun c => c == '.')
    | _ => false

/-- `ActionLayer.get_user_email` (action.py:1043-1062): read stripped lines
until one validates; `EOFError` (end of input) falls back to the default
address. -/
def get_user_email : List String → String
  | [] => "user@example.com"
  | line :: rest =>
    let email := strip line
    if emailValid email then email else get_user_email rest

/-- Render integer cents as the `{total:.2f}` dollar text. -/
def formatCents (c : Nat) : String :=
  let rem := c % 100
  toString (c / 100) ++ "." ++ (if rem < 10 then "0" ++ toString rem else toString rem)

/-- `ActionLayer._format_order_email` (action.py:898-974), abbreviated: the
claims never inspect the HTML body, only that it is built without failing. -/
def format_order_email (items : List String) (order_id : String) (totalCents : Nat) : String :=
  "Order Confirmed! Order ID: " ++ order_id ++ " Total Amount: $" ++ formatCents totalCents ++
    " Your Ingredients: " ++ String.intercalate ", " items ++
    " Total Items: " ++ toString items.length

/-- `ActionLayer._format_recipe_display` (action.py:1064-1082). -/
def format_recipe_display (dish_name : String) (ingredients steps : List String) : String :=
  let border := String.mk (List.replicate 50 '=')
  let dish_title := "\n" ++ border ++ "\n" ++ strUpper dish_name ++ " RECIPE\n" ++ border ++ "\n"
  let ingredients_section :=
    "INGREDIENTS:\n" ++ String.intercalate "\n" (ingredients.map (fun ing => "- " ++ ing))
  let steps_section :=
    "\nPREPARATION STEPS:\n" ++
      String.intercalate "\n"
        (steps.enum.map (fun p => toString (p.1 + 1) ++ ". " ++ p.2))
  let final_note := "\n" ++ border ++ "\nEnjoy your " ++ dish_name ++ "!\n" ++ border ++ "\n"
  dish_title ++ "\n" ++ ingredients_section ++ "\n\n" ++ steps_section ++ "\n\n" ++ final_note

/-! ## Action dispatcher (`ActionLayer.execute_action`, action.py:492-896) -/

/-- The member names of `models.ActionType` (models.py:155-163).  Note that
`wait_for_recipe` is NOT among them although action.py references
`ActionType.WAIT_FOR_RECIPE` five times; at runtime that attribute access
raises `AttributeError` into the dispatcher's outer handler. -/
def actionTypeMembers : List String :=
  ["fetch_recipe", "get_pantry", "place_order", "send_email", "display_recipe",
   "check_order_status", "invalid_input"]

/-- The action kinds the dispatcher's branch structure is written for
(action.py:505-878).  `wait_for_recipe` is included so the branch at
action.py:505-526 can be embedded even though models.py omits the member;
see `actionTypeMembers`. -/
inductive ActionTypeL where
  | wait_for_recipe
  | fetch_recipe
  | get_pantry
  | check_order_status
  | place_order
  | send_email
  | display_recipe
  | invalid_input
deriving Repr, DecidableEq

def ActionTypeL.value : ActionTypeL → String
  | .wait_for_recipe => "wait_for_recipe"
  | .fetch_recipe => "fetch_recipe"
  | .get_pantry => "get_pantry"
  | .check_order_status => "check_order_status"
  | .place_order => "place_order"
  | .send_email => "send_email"
  | .display_recipe => "display_recipe"
  | .invalid_input => "invalid_input"

/-- The `params` objects `execute` actually attaches to a `Decision`: typed
pydantic models for fetch/display/status and plain dictionaries for the
rest (action.py:137-225). -/
inductive ActionParamsL where
  | fetchRecipeP (dish_name : String)
  | displayRecipeP (steps : List String)
  | checkOrderStatusP (order_id : Option String)
  | invalidInputP (message : Option String)
  | pantryDict (ingredients : List String)
  | orderDict (items : List String)
  | statusDict (order_id : String)
  | emptyDict
deriving Repr, DecidableEq

/-- `models.Decision`. -/
structure DecisionL where
  action : ActionTypeL
  params : ActionParamsL
  reasoning : String
  fallback : Option String := none
deriving Repr, DecidableEq

/-- Reading `order_id` from the params at action.py:644: `.get("order_id")`
for a dict, `getattr(..., "order_id", None)` otherwise. -/
def paramsOrderId : ActionParamsL → Option String
  | .statusDict oid => some oid
  | .checkOrderStatusP oid => oid
  | _ => none

/-- The environment of one dispatch: the recipe transport call outcome, the
stdin lines the pantry prompt and the email prompt may consume, the random
order number from `random.randint` and the gmail call outcome.  An `.error`
value models the call raising an exception. -/
structure Oracle where
  recipeCall : Except String (List TextContentL) := .ok []
  pantryLines : List String := []
  emailLines : List String := []
  orderRand : Nat := 10000
  gmailCall : Except String (List TextContentL) := .ok []
deriving Repr

/-- `models.ToolResponse`. -/
structure ToolResponseL where
  content : List TextContentL
deriving Repr, DecidableEq

def textResp (s : String) : ToolResponseL := ⟨[⟨"text", s⟩]⟩

/-- The order id generated at action.py:719 from `random.randint`. -/
def orderIdOf (n : Nat) : String := "ORD-" ++ toString n

/-- The success text of the place-order branch (action.py:730-736). -/
def placeOrderMsg (oid : String) (totalCents : Nat) (items : List String) : String :=
  "Order placed successfully! Order ID: " ++ oid ++ "\n" ++
    "Total: $" ++ formatCents totalCents ++ "\n" ++
    "Items: " ++ String.intercalate ", " items

/-- The status text of the check-order-status branch (action.py:649-674). -/
def checkOrderStatusMsg (result : CheckOrderStatusOutputL) (details : OrderDetailsL) : String :=
  (if result.order_exists then
    "Order " ++ result.order_id.getD "" ++ " found in system.\n" ++
      "Status: Processing\n" ++
      "Items: " ++ String.intercalate ", " details.items ++ "\n" ++
      "Total: $" ++ formatCents details.totalCents ++ "\n" ++
      "Expected delivery: Within 2 days"
  else result.message) ++
    "\n\nThe system is ready to send an order confirmation email to your address."

/-- The outer `except Exception` handler at action.py:880-896. -/
def outerCatch (m : Mem) (actionName emsg : String) : ToolResponseL × Mem :=
  let msg := "Unexpected error executing " ++ actionName ++ ": " ++ emsg
  (textResp msg,
   update_memory m [.current_state "error", .last_action_status (some "failed"),
                    .last_error (some msg)])

/-- The FETCH_RECIPE branch body (action.py:528-592) as a function of the
`get_recipe` outcome.  On success the recipe is stored first
(action.py:542-547), and then building the display text reads
`recipe_output.recipe_name` — a field `GetRecipeOutput` does not declare —
so the AttributeError lands in the generic handler at action.py:584-592. -/
def fetchRecipeBranch (res : Except RecipeErr GetRecipeOutputL) (m : Mem) :
    ToolResponseL × Mem :=
  match res with
  | .ok out =>
    let m := update_memory m [.required_ingredients out.required_ingredients,
                              .recipe_steps out.recipe_steps,
                              .last_action_status (some "completed"),
                              .current_state "recipe_fetched"]
    let msg :=
      "Unexpected error during recipe fetch: GetRecipeOutput object has no field recipe_name"
    (textResp msg,
     update_memory m [.current_state "error", .last_action_status (some "failed"),
                      .last_error (some msg)])
  | .error (.serviceError e) =>
    -- action.py:566-574
    let msg := "Error fetching recipe: " ++ e
    (textResp msg,
     update_memory m [.current_state "error", .last_action_status (some "failed"),
                      .last_error (some msg)])
  | .error (.valueError e) =>
    -- action.py:575-583
    let msg := "Error processing recipe data: " ++ e
    (textResp msg,
     update_memory m [.current_state "error", .last_action_status (some "failed"),
                      .last_error (some msg)])

/-- The success text of the send-email branch (action.py:843-851). -/
def sendEmailSuccessMsg (user_email dish : String) (ingredients steps : List String) : String :=
  "Order confirmation email sent successfully to " ++ user_email ++ "!\n\n" ++
    format_recipe_display dish ingredients steps

/-- The SEND_EMAIL branch body after the order-placed check
(action.py:762-863). -/
def sendEmailBranch (o : Oracle) (m : Mem) : ToolResponseL × Mem :=
  -- action.py:765: `.get('order_id', 'unknown')`; the key always exists, so a
  -- stored None renders as "None" in the message texts
  let order_id := match m.order_id with
    | some s => s
    | none => "None"
  -- action.py:768-772: `if not user_email` treats "" like None
  let stored := m.user_email.getD ""
  let mUser :=
    if stored == "" then
      update_memory m [.user_email (some (get_user_email o.emailLines))]
    else m
  let user_email := if stored == "" then get_user_email o.emailLines else stored
  -- action.py:775-791: fall back to missing_ingredients when the stored
  -- order details have no items ('missing_ingredients' is always a key)
  let items0 := mUser.order_details.items
  let mItems :=
    if items0.isEmpty then
      update_memory mUser
        [.order_details ⟨mUser.missing_ingredients, mUser.missing_ingredients.length * 399⟩]
    else mUser
  let items := if items0.isEmpty then mUser.missing_ingredients else items0
  let total := if items0.isEmpty then mUser.missing_ingredients.length * 399
               else mUser.order_details.totalCents
  let _email_body := format_order_email items order_id total
  -- action.py:803-833: the gmail call; success, a reported error payload and
  -- a raised exception are all only logged, so `o.gmailCall` does not
  -- influence what follows
  let mDone := update_memory mItems [.email_sent true, .current_state "completed",
                                     .last_action_status (some "completed")]
  -- action.py:843-855: build the recipe display from the fresh memory
  match mDone.dish_name with
  | none =>
    -- `.get("dish_name", "")` returns the stored None, and `None.upper()` in
    -- `_format_recipe_display` raises AttributeError, caught at
    -- action.py:856-863 (after the state update above)
    (textResp "Failed to send email: NoneType object has no attribute upper", mDone)
  | some dish =>
    (textResp (sendEmailSuccessMsg user_email dish
        mDone.required_ingredients mDone.recipe_steps), mDone)

/-- CPython's `AttributeError` text for the missing member access at
action.py:505.  The exact wording varies across Python versions and no
theorem depends on it. -/
def wfrAttrErrText : String := "WAIT_FOR_RECIPE"

/-- `ActionLayer.execute_action` (action.py:492-896).  The started-update at
action.py:498-503 runs first; then the guard at action.py:505 evaluates
`ActionType.WAIT_FOR_RECIPE`, a member `models.ActionType` (models.py:155-163)
does not declare, so every invocation raises `AttributeError` inside the
`try` and is caught by the outer handler at action.py:880-896: the error
triple is written and the handler's message is returned as the single text
response.  The per-action branches below the guard are dead code, kept as
`executeActionBranches`.  The f-string rendering of `decision.action` in the
handler's message also varies with the Python version; `ActionTypeL.value`
stands in for it. -/
def execute_action (decision : DecisionL) (_o : Oracle) (m0 : Mem) : ToolResponseL × Mem :=
  -- action.py:498-503: mark the action as started
  let m := update_memory m0 [.last_action (some decision.action.value),
                             .current_state "action_in_progress",
                             .last_action_status (some "started")]
  -- action.py:505 raises before any branch is examined; action.py:880-896 catches
  outerCatch m decision.action.value wfrAttrErrText

/-- The per-action branch structure at action.py:505-878, translated as
written in the source.  It is dead code: `execute_action` never reaches it
(see its doc comment).  `m` is the memory after the started-update; log-only
statements (including the gmail response inspection at action.py:817-830,
which changes no state) are omitted. -/
def executeActionBranches (decision : DecisionL) (o : Oracle) (m : Mem) : ToolResponseL × Mem :=
  match decision.action with
  | .wait_for_recipe =>
    -- action.py:505-526
    if !m.recipe_steps.isEmpty then
      (textResp "Recipe has been fetched successfully.",
       update_memory m [.last_action_status (some "completed"), .current_state "ready"])
    else
      (textResp "Still waiting for recipe to be fetched...",
       update_memory m [.last_action_status (some "waiting"),
                        .current_state "waiting_for_recipe"])
  | .fetch_recipe =>
    -- action.py:528-592
    match decision.params with
    | .fetchRecipeP _dish => fetchRecipeBranch (get_recipe o.recipeCall) m
    | _ =>
      -- `decision.params.dish_name` on a params object without that field:
      -- AttributeError, caught by the generic handler at action.py:584-592
      let msg := "Unexpected error during recipe fetch: params object has no field dish_name"
      (textResp msg,
       update_memory m [.current_state "error", .last_action_status (some "failed"),
                        .last_error (some msg)])
  | .get_pantry =>
    -- action.py:594-639
    if m.required_ingredients.isEmpty then
      (textResp "No recipe loaded. Please get a recipe first.",
       update_memory m [.last_action_status (some "failed"),
                        .last_error (some "No recipe loaded. Please get a recipe first.")])
    else
      let result := check_pantry_items m.required_ingredients o.pantryLines
      -- check_pantry_items stores the available items itself (action.py:1032)
      let m := update_memory m [.available_ingredients result.available_ingredients]
      -- "pantry_items" is not a key of the memory dict, so that part of the
      -- update at action.py:615 is warn-and-ignore
      let m := update_memory m [.unknownKey "pantry_items",
                                .missing_ingredients result.missing_ingredients,
                                .last_action_status (some "completed"),
                                .current_state "pantry_checked"]
      (textResp result.message, m)
  | .check_order_status =>
    -- action.py:641-687
    let result := check_order_status m (paramsOrderId decision.params)
    (textResp (checkOrderStatusMsg result m.order_details),
     update_memory m [.last_action_status (some "completed"),
                      .current_state "awaiting_email"])
  | .place_order =>
    -- action.py:689-748
    if m.missing_ingredients.isEmpty then
      (textResp "No ingredients to order. Please check missing ingredients first.", m)
    else
      let missing := m.missing_ingredients
      let totalCents := missing.length * 399   -- 3.99 per item (action.py:706)
      let oid := orderIdOf o.orderRand
      let m := update_memory m [.order_placed true, .order_id (some oid),
                                .order_details ⟨missing, totalCents⟩,
                                .current_state "order_placed",
                                .last_action_status (some "completed")]
      (textResp (placeOrderMsg oid totalCents missing), m)
  | .send_email =>
    -- action.py:750-863
    if !m.order_placed then
      (textResp "No order to send email for. Please place an order first.", m)
    else sendEmailBranch o m
  | .display_recipe =>
    -- action.py:865-871
    match decision.params with
    | .displayRecipeP steps => (textResp (String.intercalate "\n" steps), m)
    | _ =>
      -- `decision.params.steps` on a params object without that field:
      -- AttributeError, caught only by the outer handler at action.py:880
      outerCatch m decision.action.value "params object has no field steps"
  | .invalid_input =>
    -- action.py:873-878
    (textResp (decision.fallback.getD "Invalid action"), m)

/-! ## Decision layer (`DecisionLayer.decide`, decision.py:20-196) -/

/-- The typed `params` object `_parse_llm_response` builds for a function
call (decision.py:150-176). -/
inductive LLMTypedParams where
  | fetchRecipeP (dish_name : String)
  | pantryCheckP (required_ingredients : List String)
  | placeOrderP (items : List String)
  | sendEmailP (email : String) (order_id : String) (items : List String)
  | checkOrderStatusP (order_id : Option String)
  | displayRecipeP (steps : List String)
  | invalidP (message : Option String)
deriving Repr, DecidableEq

/-- `models.LLMResponse`: the union of the three response shapes. -/
inductive LLMResponseL where
  | reasoningBlock (reasoning_type : String) (steps : List String)
      (verify nextStep fallback_plan : String)
  | functionCall (function : String) (params : LLMTypedParams) (on_fail : String)
  | finalAnswer (value : String)
deriving Repr, DecidableEq

/-- pydantic validation of `Optional[str]`: absent or null stays `none`. -/
def asOptString : Option JVal → Option (Option String)
  | none => some none
  | some .jnull => some none
  | some (.jstr s) => some (some s)
  | some _ => none

/-- Validate the `reasoning_block` shape: the explicit presence checks at
decision.py:121-124 plus pydantic's field validation of `ReasoningBlock`. -/
def parseReasoningBlock (fs : List (String × JVal)) : Option LLMResponseL :=
  match jlookup fs "steps", jlookup fs "verify", jlookup fs "next",
        jlookup fs "fallback_plan" with
  | some stepsV, some verifyV, some nextV, some fbV =>
    match jlookup fs "reasoning_type" with
    | some rtV =>
      match asString rtV, asStringList stepsV, asString verifyV, asString nextV,
            asString fbV with
      | some rt, some steps, some v, some nx, some fb =>
        some (.reasoningBlock rt steps v nx fb)
      | _, _, _, _, _ => none
    | none => none
  | _, _, _, _ => none

/-- Build the typed params object for one function name from the inner
`params` dictionary (decision.py:150-176). -/
def buildTypedParams (fname : String) (rp : List (String × JVal)) : Option LLMTypedParams :=
  if fname == "fetch_recipe" then
    (jlookup rp "dish_name").bind asString |>.map LLMTypedParams.fetchRecipeP
  else if fname == "get_pantry" then
    (jlookup rp "required_ingredients").bind asStringList |>.map LLMTypedParams.pantryCheckP
  else if fname == "place_order" then
    (jlookup rp "items").bind asStringList |>.map LLMTypedParams.placeOrderP
  else if fname == "send_email" then
    match (jlookup rp "email").bind asString, (jlookup rp "order_id").bind asString,
          (jlookup rp "items").bind asStringList with
    | some e, some oid, some its => some (.sendEmailP e oid its)
    | _, _, _ => none
  else if fname == "check_order_status" then
    (asOptString (jlookup rp "order_id")).map LLMTypedParams.checkOrderStatusP
  else if fname == "display_recipe" then
    (jlookup rp "steps").bind asStringList |>.map LLMTypedParams.displayRecipeP
  else
    -- only "invalid_input" reaches the else at decision.py:173-176
    some (.invalidP (some ("Unsupported action type: " ++ fname)))

/-- Validate the `function_call` shape (decision.py:128-179): presence of
`function` and `parameters`, the `ActionType(function)` conversion, the
typed params, and pydantic's required `on_fail` field. -/
def parseFunctionCall (fs : List (String × JVal)) : Option LLMResponseL :=
  match jlookup fs "function", jlookup fs "parameters" with
  | some fv, some pv =>
    match asString fv with
    | some fname =>
      if actionTypeMembers.contains fname then
        match pv with
        | .jobj pfs =>
          match (jlookup pfs "params").getD (.jobj []) with
          | .jobj rp =>
            match buildTypedParams fname rp with
            | some typed =>
              match (jlookup fs "on_fail").bind asString with
              | some onf => some (.functionCall fname typed onf)
              | none => none
            | none => none
          | _ => none
        | _ => none
      else none
    | none => none
  | _, _ => none

/-- Validate the `final_answer` shape (decision.py:181-185). -/
def parseFinalAnswer (fs : List (String × JVal)) : Option LLMResponseL :=
  match jlookup fs "value" with
  | some v => (asString v).map LLMResponseL.finalAnswer
  | none => none

/-- `DecisionLayer._parse_llm_response` (decision.py:97-196): markdown fence
cleanup, JSON parse, dispatch on the `type` field.  `none` stands for any of
the exceptions the method raises. -/
def parse_llm_response (response_text : String) : Option LLMResponseL :=
  let c0 := strip response_text
  let c1 := if strStartsWith c0 "```json" then strDrop c0 7
            else if strStartsWith c0 "```" then strDrop c0 3 else c0
  let c2 := if strEndsWith c1 "```" then strDropRight c1 3 else c1
  let cleaned := strip c2
  match parseJson cleaned with
  | none => none
  | some (.jobj fs) =>
    match jlookup fs "type" with
    | some (.jstr t) =>
      if t == "reasoning_block" then parseReasoningBlock fs
      else if t == "function_call" then parseFunctionCall fs
      else if t == "final_answer" then parseFinalAnswer fs
      else none
    | _ => none
  | some _ => none

/-- The recovery block `decide` returns when anything raises
(decision.py:45-58). -/
def errorRecoveryBlock (e : String) : LLMResponseL :=
  .reasoningBlock "error_handling"
    ["Error occurred: " ++ e, "Attempting to recover from error"]
    "Check if error is recoverable"
    "Retry last action with modified parameters"
    "Reset to last known good state"

/-- The context dictionary `MemoryLayer.get_context` builds
(memory.py:206-231). -/
structure CtxCurrentState where
  state : String
  last_action : Option String
  last_action_status : Option String
  retries : Nat
  last_error : Option String
deriving Repr, DecidableEq

structure CtxTaskProgress where
  dish_name : Option String
  recipe_obtained : Bool
  ingredients_checked : Bool
  order_placed : Bool
  email_sent : Bool
  user_email : Option String
deriving Repr, DecidableEq

structure CtxRecipeDetails where
  required_ingredients : List String
  missing_ingredients : List String
  available_ingredients : List String
  recipe_steps : List String
deriving Repr, DecidableEq

structure ContextL where
  current_state : CtxCurrentState
  task_progress : CtxTaskProgress
  recipe_details : CtxRecipeDetails
  order_id : Option String
deriving Repr, DecidableEq

/-- `MemoryLayer.get_context` without new perceived input (memory.py:184-234,
the pure projection part). -/
def get_context (m : Mem) : ContextL :=
  ⟨⟨m.current_state, m.last_action, m.last_action_status, m.retries, m.last_error⟩,
   ⟨m.dish_name, !m.recipe_steps.isEmpty, !m.missing_ingredients.isEmpty,
    m.order_placed, m.email_sent, m.user_email⟩,
   ⟨m.required_ingredients, m.missing_ingredients, m.available_ingredients, m.recipe_steps⟩,
   m.order_id⟩

/-- `DecisionLayer.decide` (decision.py:20-58): the context feeds the prompt
sent to the LLM; the returned action is computed from the LLM outcome alone
(`.error` models the generation or the prompt construction raising), with
every exception turned into the fixed recovery block. -/
def decide (_ctx : ContextL) (llm : Except String String) : LLMResponseL :=
  match llm with
  | .error e => errorRecoveryBlock e
  | .ok text =>
    match parse_llm_response text with
    | some r => r
    | none => errorRecoveryBlock "could not parse LLM response"

/-! ## Orchestration loop and the spec's rule table -/

/-- The loop completion check at main.py:542:
`if memory.memory.user_email and memory.memory.order_placed and
memory.memory.email_sent: ... break`.  Python truthiness makes an empty
string count as no email. -/
def loop_completion (m : Mem) : Bool :=
  (match m.user_email with
   | some e => !(e == "")
   | none => false) && m.order_placed && m.email_sent

/-- Modelled from the spec: the rule-based decision function
(`next_action` of spec §4.2, called `decide_next_action` by its callers at
main.py:433, 456 and 479) is not defined in any file under `src/`; this is
the ordered rule list of §4.2, with `missing_items : Option _` representing
"not yet computed". -/
structure SpecState where
  subject : String := ""
  required_items : List String := []
  missing_items : Option (List String) := none
  result_steps : List String := []
  order_placed : Bool := false
  notification_sent : Bool := false
  order_id : Option String := none
deriving Repr, DecidableEq

/-- Modelled from the spec: the action kinds of §4.2. -/
inductive SpecActionKind where
  | invalid_input
  | fetch_details
  | reconcile_items
  | place_order
  | notify
  | present_result
deriving Repr, DecidableEq

/-- Modelled from the spec: `next_action` evaluates the ordered rules of
§4.2 and returns the first whose guard matches. -/
def next_action (s : SpecState) : SpecActionKind :=
  if s.subject == "" then .invalid_input
  else if s.required_items.isEmpty && s.result_steps.isEmpty then .fetch_details
  else if !s.required_items.isEmpty && s.missing_items.isNone then .reconcile_items
  else if (s.missing_items.getD []).length ≠ 0 && !s.order_placed then .place_order
  else if s.order_placed && !s.notification_sent && s.order_id.isSome then .notify
  else if !s.result_steps.isEmpty &&
          ((s.order_placed && s.notification_sent) || s.missing_items == some []) then
    .present_result
  else .invalid_input

/-! # Claims -/

/-! ## C6 — partial updates and invariant re-validation -/

/-- Claim C6 (counterexample): `update_memory` applies an update whose merged
result violates the §3 invariant `order_id set ↔ order_placed` — setting
`order_placed` alone leaves `order_id = none`, the update does not fail and
the state does change. -/
theorem c6_counterexample :
    (update_memory initMem [.order_placed true]).order_placed = true ∧
    (update_memory initMem [.order_placed true]).order_id = none ∧
    update_memory initMem [.order_placed true] ≠ initMem := by
  refine ⟨rfl, rfl, ?_⟩
  intro h
  exact Bool.noConfusion (congrArg Mem.order_placed h)

/-- Claim C6 (amended): a partial update to the task-state store applies
exactly the supplied fields — known keys overwrite their field leaving every
other field unchanged, unknown keys are ignored — and no invariant is
re-validated after the merge, so a violating merge is applied unconditionally
(see the counterexample). -/
theorem c6_update_applies_only_supplied_fields :
    (∀ (m : Mem) (b : Bool),
      update_memory m [.order_placed b] = { m with order_placed := b }) ∧
    (∀ (m : Mem) (b : Bool) (v : Option String),
      update_memory m [.order_placed b, .order_id v] =
        { m with order_placed := b, order_id := v }) ∧
    (∀ (m : Mem) (k : String) (rest : List MemUpd),
      update_memory m (.unknownKey k :: rest) = update_memory m rest) :=
  ⟨fun _ _ => rfl, fun _ _ _ => rfl, fun _ _ _ => rfl⟩

/-! ## C9 — completion without an order -/

/-- The task state of the spec's §8 scenario: recipe fetched, nothing
missing, no order placed. -/
def c9_spec_state : SpecState :=
  { subject := "pasta carbonara", required_items := ["spaghetti"],
    missing_items := some [], result_steps := ["step1"] }

/-- The same scenario as the dispatcher's memory (even with an email address
already supplied). -/
def c9_mem : Mem :=
  { initMem with
      dish_name := some "pasta carbonara"
      required_ingredients := ["spaghetti"]
      recipe_steps := ["step1"]
      user_email := some "user@example.com" }

/-- Claim C9: with `missing_items = []` and non-empty `result_steps` the
§4.2 rules do select `present_result`, but the orchestration loop's
completion check (main.py:542) is false there and is false for every state
without an order, because it demands `user_email ∧ order_placed ∧
email_sent` — completion does require an order, contradicting the claim (and
the completion rule the repository's own system prompt states at
main.py:203-206). -/
theorem c9_completion_requires_order :
    next_action c9_spec_state = .present_result ∧
    loop_completion c9_mem = false ∧
    (∀ m : Mem, loop_completion { m with order_placed := false } = false) := by
  refine ⟨rfl, rfl, fun m => ?_⟩
  simp [loop_completion]

/-! ## C3 — determinism of the decision step -/

def c3_response_a : String :=
  dumpJ (.jobj [("type", .jstr "final_answer"), ("value", .jstr "done")])

def c3_response_b : String :=
  dumpJ (.jobj [("type", .jstr "reasoning_block"), ("reasoning_type", .jstr "planning"),
    ("steps", .jarr [.jstr "Step 1"]), ("verify", .jstr "check"),
    ("next", .jstr "get_recipe"), ("fallback_plan", .jstr "retry")])

set_option maxRecDepth 4000 in
/-- Claim C3 (counterexample): two invocations of `decide` on equal task
states return different actions when the LLM replies differently, so the
next-action selection is not a pure function of the task state. -/
theorem c3_counterexample :
    decide (get_context initMem) (.ok c3_response_a) ≠
      decide (get_context initMem) (.ok c3_response_b) := by decide

/-- Claim C3 (amended): the next-action selection is a deterministic function
of the LLM outcome alone — for equal LLM responses the same action is
returned, even across different task-state contexts (the context only shapes
the prompt sent to the LLM). -/
theorem c3_decide_deterministic_in_response :
    ∀ (c₁ c₂ : ContextL) (r : Except String String), decide c₁ r = decide c₂ r :=
  fun _ _ _ => rfl

/-! ## C2 — the dispatcher boundary -/

/-- Claim C2: for every decision, every environment behaviour and every
memory state, the dispatcher returns a well-formed `ToolResponse` with
exactly one text content item: the outer handler at action.py:880-896
catches every exception — including the unconditional `AttributeError` the
guard at action.py:505 raises on each call — and returns the single-text
error response, so no exception reaches the orchestration loop. -/
theorem c2_execute_action_total_response :
    ∀ (d : DecisionL) (o : Oracle) (m : Mem),
      (execute_action d o m).1.content.length = 1 :=
  fun _ _ _ => rfl

/-! ## C8 — the pantry partition -/

/-- Every pantry item the comparison uses is a stripped, lowercased input
line (the capture loop at action.py:991-1000). -/
theorem pantryItemsOf_normalized (stdinLines : List String) :
    ∀ it ∈ pantryItemsOf stdinLines, ∃ l ∈ stdinLines, it = strLower (strip l) := by
  induction stdinLines with
  | nil => intro it hit; simp [pantryItemsOf] at hit
  | cons line rest ih =>
    intro it hit
    by_cases hdone : strLower (strip line) = "done"
    · simp [pantryItemsOf, hdone] at hit
    · by_cases hempty : strLower (strip line) = ""
      · simp only [pantryItemsOf] at hit
        rw [if_neg (by simpa using hdone), if_pos (by simpa using hempty)] at hit
        obtain ⟨l, hl, he⟩ := ih it hit
        exact ⟨l, List.mem_cons_of_mem _ hl, he⟩
      · simp only [pantryItemsOf] at hit
        rw [if_neg (by simpa using hdone), if_neg (by simpa using hempty)] at hit
        rcases List.mem_cons.mp hit with h | h
        · exact ⟨line, List.mem_cons_self _ _, h⟩
        · obtain ⟨l, hl, he⟩ := ih it h
          exact ⟨l, List.mem_cons_of_mem _ hl, he⟩

/-- The appending loop of action.py:1008-1018 computes the two filters of the
required list by the match predicate. -/
theorem pantryLoop_eq_filter (pantry required : List String) :
    pantryLoop pantry required =
      (required.filter (fun r => ingredient_match pantry r),
       required.filter (fun r => !ingredient_match pantry r)) := by
  induction required with
  | nil => rfl
  | cons r rs ih =>
    cases h : ingredient_match pantry r <;>
      simp [pantryLoop, ih, List.filter_cons, h]

/-- Claim C8: the pantry check places every required ingredient in exactly
one of `available_ingredients` and `missing_ingredients`; the missing list is
a subset of the required list; the match predicate sees a required item only
through its lowercased form; and every pantry item compared against is a
stripped, lowercased input line. -/
theorem c8_pantry_partition :
    ∀ (required stdinLines : List String),
      (∀ x ∈ required,
        (x ∈ (check_pantry_items required stdinLines).available_ingredients ∧
           x ∉ (check_pantry_items required stdinLines).missing_ingredients) ∨
        (x ∈ (check_pantry_items required stdinLines).missing_ingredients ∧
           x ∉ (check_pantry_items required stdinLines).available_ingredients)) ∧
      (∀ x ∈ (check_pantry_items required stdinLines).missing_ingredients, x ∈ required) ∧
      (∀ x y : String, strLower x = strLower y →
        ingredient_match (pantryItemsOf stdinLines) x =
          ingredient_match (pantryItemsOf stdinLines) y) ∧
      (∀ it ∈ pantryItemsOf stdinLines, ∃ l ∈ stdinLines, it = strLower (strip l)) := by
  intro required stdinLines
  have hres :
      (check_pantry_items required stdinLines).available_ingredients =
        required.filter (fun r => ingredient_match (pantryItemsOf stdinLines) r) ∧
      (check_pantry_items required stdinLines).missing_ingredients =
        required.filter (fun r => !ingredient_match (pantryItemsOf stdinLines) r) := by
    simp [check_pantry_items, pantryLoop_eq_filter]
  refine ⟨?_, ?_, ?_, ?_⟩
  · intro x hx
    rcases h : ingredient_match (pantryItemsOf stdinLines) x with _ | _
    · right
      constructor
      · rw [hres.2, List.mem_filter]; exact ⟨hx, by simp [h]⟩
      · rw [hres.1, List.mem_filter]; simp [h]
    · left
      constructor
      · rw [hres.1, List.mem_filter]; exact ⟨hx, by simp [h]⟩
      · rw [hres.2, List.mem_filter]; simp [h]
  · intro x hx
    rw [hres.2, List.mem_filter] at hx
    exact hx.1
  · intro x y h
    simp only [ingredient_match, h]
  · exact pantryItemsOf_normalized stdinLines

/-! ## C7 — `order_id` if and only if `order_placed` -/

/-- Task states reachable from the initial memory by dispatcher steps. -/
inductive DispatcherReachable : Mem → Prop
  | init : DispatcherReachable initMem
  | step (d : DecisionL) (o : Oracle) {m : Mem} :
      DispatcherReachable m → DispatcherReachable (execute_action d o m).2

/-- Every dispatch step ends in the outer handler, which writes only
`last_action`, `current_state`, `last_action_status` and `last_error`; every
other memory field is unchanged. -/
theorem execute_action_frame (d : DecisionL) (o : Oracle) (m : Mem) :
    (execute_action d o m).2.dish_name = m.dish_name ∧
    (execute_action d o m).2.required_ingredients = m.required_ingredients ∧
    (execute_action d o m).2.missing_ingredients = m.missing_ingredients ∧
    (execute_action d o m).2.available_ingredients = m.available_ingredients ∧
    (execute_action d o m).2.recipe_steps = m.recipe_steps ∧
    (execute_action d o m).2.order_placed = m.order_placed ∧
    (execute_action d o m).2.order_id = m.order_id ∧
    (execute_action d o m).2.order_details = m.order_details ∧
    (execute_action d o m).2.email_sent = m.email_sent ∧
    (execute_action d o m).2.user_email = m.user_email ∧
    (execute_action d o m).2.retries = m.retries := by
  obtain ⟨f1, f2, f3, f4, f5, f6, f7, f8, f9, f10, f11, f12, f13, f14, f15⟩ := m
  exact ⟨rfl, rfl, rfl, rfl, rfl, rfl, rfl, rfl, rfl, rfl, rfl⟩

theorem reachable_orderInv : ∀ m, DispatcherReachable m → m.order_id.isSome = m.order_placed := by
  intro m h
  induction h with
  | init => rfl
  | step d o hr ih =>
    rw [(execute_action_frame d o _).2.2.2.2.2.2.1, (execute_action_frame d o _).2.2.2.2.2.1]
    exact ih

/-- Claim C7 (counterexample): a place-order step on a state with missing
ingredients does not set the order fields — the call fails at action.py:505
before the PLACE_ORDER branch (action.py:719-728) and ends in the error
state. -/
theorem c7_counterexample :
    (execute_action ⟨.place_order, .emptyDict, "", none⟩ {}
        { initMem with missing_ingredients := ["salt"] }).2.order_placed = false ∧
    (execute_action ⟨.place_order, .emptyDict, "", none⟩ {}
        { initMem with missing_ingredients := ["salt"] }).2.order_id = none ∧
    (execute_action ⟨.place_order, .emptyDict, "", none⟩ {}
        { initMem with missing_ingredients := ["salt"] }).2.current_state = "error" :=
  ⟨rfl, rfl, rfl⟩

/-- Claim C7 (amended): in every task state reachable by dispatcher steps,
`order_id` is set exactly when `order_placed` is true — but only because
neither field ever changes: the initial state has `order_placed = false` and
`order_id = none`, and no dispatcher operation (the place-order step
included) touches either field, every call raising at action.py:505 before
its branch. -/
theorem c7_order_id_iff_order_placed :
    (initMem.order_placed = false ∧ initMem.order_id = none) ∧
    (∀ m, DispatcherReachable m → (m.order_id ≠ none ↔ m.order_placed = true)) ∧
    (∀ (m : Mem) (d : DecisionL) (o : Oracle),
      (execute_action d o m).2.order_placed = m.order_placed ∧
      (execute_action d o m).2.order_id = m.order_id) := by
  refine ⟨⟨rfl, rfl⟩, ?_, ?_⟩
  · intro m hm
    have hinv := reachable_orderInv m hm
    rw [← hinv, ← Option.ne_none_iff_isSome]
  · intro m d o
    exact ⟨(execute_action_frame d o m).2.2.2.2.2.1,
           (execute_action_frame d o m).2.2.2.2.2.2.1⟩

/-- Claim C7 (witness): the invariant at the initial state and the frame at a
concrete place-order step. -/
theorem c7_witness :
    (initMem.order_id ≠ none ↔ initMem.order_placed = true) ∧
    ((execute_action ⟨.place_order, .emptyDict, "", none⟩ {} initMem).2.order_placed =
        initMem.order_placed) :=
  ⟨c7_order_id_iff_order_placed.2.1 initMem DispatcherReachable.init,
   (c7_order_id_iff_order_placed.2.2 initMem ⟨.place_order, .emptyDict, "", none⟩ {}).1⟩

/-- Claim C8 (witness): the partition property evaluated on a concrete
required list and pantry input. -/
theorem c8_witness :
    ("Eggs" ∈ (check_pantry_items ["Eggs"] ["eggs", "done"]).available_ingredients ∧
       "Eggs" ∉ (check_pantry_items ["Eggs"] ["eggs", "done"]).missing_ingredients) ∨
    ("Eggs" ∈ (check_pantry_items ["Eggs"] ["eggs", "done"]).missing_ingredients ∧
       "Eggs" ∉ (check_pantry_items ["Eggs"] ["eggs", "done"]).available_ingredients) :=
  (c8_pantry_partition ["Eggs"] ["eggs", "done"]).1 "Eggs" (by decide)

/-! ## C5 — classified failures and the error state -/

/-- Claim C5: every failure the dispatcher classifies results in the
non-fatal error update — `current_state = "error"`,
`last_action_status = "failed"`, `last_error` populated — and a
user-visible text response carrying the same message.  Since every
invocation raises `AttributeError` at action.py:505, every dispatch is such
a failure and is handled by the outer handler at action.py:880-896, so the
property holds of every call. -/
theorem c5_error_state_updates (d : DecisionL) (o : Oracle) (m : Mem) :
    (execute_action d o m).2.current_state = "error" ∧
    (execute_action d o m).2.last_action_status = some "failed" ∧
    (execute_action d o m).2.last_error ≠ none ∧
    (execute_action d o m).1 =
      textResp ((execute_action d o m).2.last_error.getD "") :=
  ⟨rfl, rfl, fun h => Option.noConfusion h, rfl⟩

/-! ## C10 — the send-email step -/

/-- A state with an order placed and a dish name, an order id, order details
and an email address stored: everything the send-email branch would need. -/
def c10_mem : Mem :=
  { initMem with
    dish_name := some "pasta"
    order_placed := true
    order_id := some "ORD-12345"
    order_details := ⟨["tomatoes"], 399⟩
    user_email := some "user@test.com" }

/-- Claim C10 (counterexample): with an order placed and every field the
email step would need, executing SEND_EMAIL does not send or complete
anything: the call raises `AttributeError` at action.py:505 and the outer
handler (action.py:880-896) records the error state, leaving `email_sent`
false. -/
theorem c10_counterexample :
    (execute_action ⟨.send_email, .emptyDict, "", none⟩
        { gmailCall := .error "SMTP connection failed" } c10_mem).2.email_sent = false ∧
    (execute_action ⟨.send_email, .emptyDict, "", none⟩
        { gmailCall := .error "SMTP connection failed" } c10_mem).2.current_state = "error" ∧
    (execute_action ⟨.send_email, .emptyDict, "", none⟩
        { gmailCall := .error "SMTP connection failed" } c10_mem).2.last_action_status =
      some "failed" :=
  ⟨rfl, rfl, rfl⟩

/-- Claim C10 (amended): executing SEND_EMAIL never sets `email_sent` and
never completes, whatever the state and the environment: the branch at
action.py:750-863 — including the code that would swallow a gmail
failure — is unreachable, and the step always ends in the outer handler's
error state with `email_sent` unchanged. -/
theorem c10_send_email_never_sends
    (m : Mem) (p : ActionParamsL) (rs : String) (fb : Option String) (o : Oracle) :
    (execute_action ⟨.send_email, p, rs, fb⟩ o m).2.email_sent = m.email_sent ∧
    (execute_action ⟨.send_email, p, rs, fb⟩ o m).2.current_state = "error" ∧
    (execute_action ⟨.send_email, p, rs, fb⟩ o m).2.last_action_status = some "failed" ∧
    (execute_action ⟨.send_email, p, rs, fb⟩ o m).2.last_error ≠ none := by
  obtain ⟨f1, f2, f3, f4, f5, f6, f7, f8, f9, f10, f11, f12, f13, f14, f15⟩ := m
  exact ⟨rfl, rfl, rfl, fun h => Option.noConfusion h⟩

/-! ## C4 — decode idempotence under one `content` wrapping

The lemmas below establish that the canonical serialization of a payload
parses back to it (`parseJson (dumpJ v) = some v` for the payload shapes the
recipe capability produces), and from that the decode results for the flat
and the once-wrapped payload. -/

theorem hexDigVal_hexDigChar : ∀ n < 16, hexDigVal (hexDigChar n) = some n := by decide

theorem parseStrBody_quoteBody (cs rest : List Char) :
    parseStrBody (quoteBodyC cs ++ ('"' :: rest)) = some (cs, rest) := by
  induction cs with
  | nil =>
    rw [show quoteBodyC [] ++ ('"' :: rest) = '"' :: rest from rfl, parseStrBody.eq_def]
    simp
  | cons c cs ih =>
    by_cases hq : (c == '"') = true
    · have hc : c = '"' := eq_of_beq hq
      subst hc
      simp only [quoteBodyC, List.cons_append, List.nil_append, if_true, ite_true]
      rw [parseStrBody.eq_def]
      simp [ih, unescapeC]
    · by_cases hb : (c == '\\') = true
      · have hc : c = '\\' := eq_of_beq hb
        subst hc
        simp only [quoteBodyC, List.cons_append, List.nil_append, if_true, ite_true,
          if_false, ite_false, Bool.false_eq_true, hq]
        rw [parseStrBody.eq_def]
        simp [ih, unescapeC]
      · by_cases hctl : c.toNat < 32
        · simp only [quoteBodyC, hq, hb, hctl, if_true, if_false, Bool.false_eq_true,
            ite_true, ite_false, List.cons_append, List.nil_append]
          rw [parseStrBody.eq_def]
          simp only [List.cons_append]
          have e1 : ('\\' == '"') = false := by decide
          have e2 : ('\\' == '\\') = true := by decide
          have e3 : ('u' == 'u') = true := by decide
          simp only [e1, e2, e3, Bool.false_eq_true, ite_false, ite_true, if_true, if_false]
          rw [(by decide : hexDigVal '0' = some 0),
              hexDigVal_hexDigChar _ (show c.toNat / 16 < 16 by omega),
              hexDigVal_hexDigChar _ (show c.toNat % 16 < 16 by omega)]
          dsimp only
          rw [ih]
          rw [show (4096 * 0 + 256 * 0 + 16 * (c.toNat / 16) + c.toNat % 16) = c.toNat from
              by omega,
            Char.ofNat_toNat]
        · simp only [quoteBodyC, hq, hb, hctl, if_false, Bool.false_eq_true, ite_false,
            List.cons_append, List.nil_append]
          rw [parseStrBody.eq_def]
          simp [hq, hb, ih]


theorem quoteC_append (cs r : List Char) :
    quoteC cs ++ r = '"' :: (quoteBodyC cs ++ ('"' :: r)) := by
  simp [quoteC]

theorem parseV_jstr (s : String) (n : Nat) (rest : List Char) :
    parseV (n + 1) (dumpV (.jstr s) ++ rest) = some (.jstr s, rest) := by
  rw [show dumpV (.jstr s) = quoteC s.data from rfl, quoteC_append, parseV.eq_def]
  simp [skipWs, isWsC, parseStrBody_quoteBody, show String.mk s.data = s from rfl]

def commaItems : List String → List Char → List Char
  | [], acc => acc
  | x :: xs, acc => ',' :: ('"' :: (quoteBodyC x.data ++ ('"' :: commaItems xs acc)))

theorem dumpItems_strings (l : List String) (acc : List Char) :
    dumpItems (l.map .jstr) ++ acc =
      (match l with
       | [] => acc
       | x :: xs => '"' :: (quoteBodyC x.data ++ ('"' :: commaItems xs acc))) := by
  induction l generalizing acc with
  | nil => rfl
  | cons x xs ih =>
    cases xs with
    | nil => simp [dumpItems, dumpV, quoteC_append, commaItems]
    | cons y ys =>
      simp only [List.map_cons, dumpItems, List.append_assoc, List.cons_append]
      rw [show dumpV (.jstr x) = quoteC x.data from rfl, quoteC_append]
      have ihy := ih acc
      simp only [List.map_cons] at ihy
      simp [ihy, commaItems]

theorem parseArrTail_commaItems (l : List String) :
    ∀ (n : Nat) (rest : List Char), l.length + 1 ≤ n →
      parseArrTail n (commaItems l (']' :: rest)) = some (l.map .jstr, rest) := by
  induction l with
  | nil =>
    intro n rest hn
    obtain ⟨m, rfl⟩ : ∃ m, n = m + 1 := ⟨n - 1, by omega⟩
    rw [parseArrTail.eq_def]
    simp [skipWs, isWsC]
  | cons x xs ih =>
    intro n rest hn
    simp only [List.length_cons] at hn
    obtain ⟨m, rfl⟩ : ∃ m, n = m + 1 := ⟨n - 1, by omega⟩
    obtain ⟨k, rfl⟩ : ∃ k, m = k + 1 := ⟨m - 1, by omega⟩
    rw [show commaItems (x :: xs) (']' :: rest) =
        ',' :: ('"' :: (quoteBodyC x.data ++ ('"' :: commaItems xs (']' :: rest)))) from rfl]
    rw [parseArrTail.eq_def]
    have h1 : parseV (k + 1) ('"' :: (quoteBodyC x.data ++ ('"' :: commaItems xs (']' :: rest)))) =
        some (.jstr x, commaItems xs (']' :: rest)) := by
      have := parseV_jstr x k (commaItems xs (']' :: rest))
      rw [show dumpV (.jstr x) = quoteC x.data from rfl, quoteC_append] at this
      exact this
    simp [skipWs, isWsC, h1, ih (k + 1) rest (by omega)]

theorem parseV_jarr_strings (l : List String) (n : Nat) (rest : List Char)
    (hn : l.length + 2 ≤ n) :
    parseV n (dumpV (.jarr (l.map .jstr)) ++ rest) = some (.jarr (l.map .jstr), rest) := by
  obtain ⟨m, rfl⟩ : ∃ m, n = m + 1 := ⟨n - 1, by omega⟩
  rw [show dumpV (.jarr (l.map .jstr)) ++ rest =
      '[' :: (dumpItems (l.map .jstr) ++ (']' :: rest)) by simp [dumpV]]
  rw [dumpItems_strings]
  cases l with
  | nil =>
    obtain ⟨k, rfl⟩ : ∃ k, m = k + 1 := ⟨m - 1, by omega⟩
    rw [parseV.eq_def]
    simp only [skipWs, isWsC]
    simp [show ('[' == lbraceC) = false by decide]
    rw [parseArrItems.eq_def]
    simp [skipWs, isWsC]
  | cons x xs =>
    simp only [List.length_cons] at hn
    obtain ⟨k, rfl⟩ : ∃ k, m = k + 1 := ⟨m - 1, by omega⟩
    obtain ⟨j, rfl⟩ : ∃ j, k = j + 1 := ⟨k - 1, by omega⟩
    simp only
    rw [parseV.eq_def]
    simp only [skipWs, isWsC]
    simp only [show ('[' == lbraceC) = false by decide, show ('[' == '"') = false by decide,
      show ('[' == '[') = true by decide, Bool.false_eq_true, ite_false, ite_true,
      if_false, if_true,
      show ('[' == ' ' || '[' == Char.ofNat 10 || '[' == Char.ofNat 9 || '[' == Char.ofNat 13) = false
        by decide]
    rw [parseArrItems.eq_def]
    have h1 : parseV (j + 1) ('"' :: (quoteBodyC x.data ++ ('"' :: commaItems xs (']' :: rest)))) =
        some (.jstr x, commaItems xs (']' :: rest)) := by
      have := parseV_jstr x j (commaItems xs (']' :: rest))
      rw [show dumpV (.jstr x) = quoteC x.data from rfl, quoteC_append] at this
      exact this
    simp [skipWs, isWsC, h1, parseArrTail_commaItems xs (j + 1) rest (by omega)]

def fieldsTail : List (String × JVal) → List Char → List Char
  | [], acc => acc
  | (key, v) :: fs, acc =>
    ',' :: ('"' :: (quoteBodyC key.data ++ ('"' :: ':' :: (dumpV v ++ fieldsTail fs acc))))

def objInner : List (String × JVal) → List Char → List Char
  | [], acc => acc
  | (key, v) :: fs, acc =>
    '"' :: (quoteBodyC key.data ++ ('"' :: ':' :: (dumpV v ++ fieldsTail fs acc)))

theorem dumpFields_append (fs : List (String × JVal)) (acc : List Char) :
    dumpFields fs ++ acc = objInner fs acc := by
  induction fs generalizing acc with
  | nil => rfl
  | cons f fs ih =>
    obtain ⟨key, v⟩ := f
    cases fs with
    | nil => simp [dumpFields, objInner, fieldsTail, quoteC_append]
    | cons g gs =>
      simp only [dumpFields, List.append_assoc, List.cons_append]
      rw [quoteC_append]
      simp [objInner, fieldsTail, ih, quoteC_append]

theorem parseObjTail_fieldsTail (fs : List (String × JVal)) (k : Nat)
    (hv : ∀ p ∈ fs, ∀ (n : Nat) (rest : List Char), k ≤ n →
        parseV n (dumpV (Prod.snd p) ++ rest) = some (Prod.snd p, rest)) :
    ∀ (n : Nat) (rest : List Char), fs.length + k + 2 ≤ n →
      parseObjTail n (fieldsTail fs (rbraceC :: rest)) = some (fs, rest) := by
  induction fs with
  | nil =>
    intro n rest hn
    obtain ⟨m, rfl⟩ : ∃ m, n = m + 1 := ⟨n - 1, by omega⟩
    rw [parseObjTail.eq_def]
    simp [skipWs, show isWsC rbraceC = false by decide,
      show (rbraceC == rbraceC) = true by decide]
  | cons f fs ih =>
    obtain ⟨key, v⟩ := f
    intro n rest hn
    simp only [List.length_cons] at hn
    obtain ⟨m, rfl⟩ : ∃ m, n = m + 1 := ⟨n - 1, by omega⟩
    obtain ⟨u, rfl⟩ : ∃ u, m = u + 1 := ⟨m - 1, by omega⟩
    rw [show fieldsTail ((key, v) :: fs) (rbraceC :: rest) =
        ',' :: ('"' :: (quoteBodyC key.data ++
          ('"' :: ':' :: (dumpV v ++ fieldsTail fs (rbraceC :: rest))))) from rfl]
    rw [parseObjTail.eq_def]
    have hkey := parseStrBody_quoteBody key.data
      (':' :: (dumpV v ++ fieldsTail fs (rbraceC :: rest)))
    have hcv : parseColonVal (u + 1)
        (':' :: (dumpV v ++ fieldsTail fs (rbraceC :: rest))) =
        some (v, fieldsTail fs (rbraceC :: rest)) := by
      rw [parseColonVal.eq_def]
      have hpv : parseV u (dumpV v ++ fieldsTail fs (rbraceC :: rest)) =
          some (v, fieldsTail fs (rbraceC :: rest)) :=
        hv (key, v) (List.mem_cons_self _ _) u
          (fieldsTail fs (rbraceC :: rest)) (by omega)
      simp [skipWs, isWsC, hpv]
    have hrec := ih (fun p hp => hv p (List.mem_cons_of_mem _ hp)) (u + 1) rest (by omega)
    simp [skipWs, isWsC, show (',' == rbraceC) = false by decide, hkey, hcv, hrec,
      show String.mk key.data = key from rfl]

theorem parseObjItems_objInner (fs : List (String × JVal)) (k : Nat)
    (hv : ∀ p ∈ fs, ∀ (n : Nat) (rest : List Char), k ≤ n →
        parseV n (dumpV (Prod.snd p) ++ rest) = some (Prod.snd p, rest)) :
    ∀ (n : Nat) (rest : List Char), fs.length + k + 2 ≤ n →
      parseObjItems n (objInner fs (rbraceC :: rest)) = some (fs, rest) := by
  intro n rest hn
  cases fs with
  | nil =>
    obtain ⟨m, rfl⟩ : ∃ m, n = m + 1 := ⟨n - 1, by omega⟩
    rw [parseObjItems.eq_def]
    simp [skipWs, show isWsC rbraceC = false by decide,
      show (rbraceC == rbraceC) = true by decide]
  | cons f fs =>
    obtain ⟨key, v⟩ := f
    simp only [List.length_cons] at hn
    obtain ⟨m, rfl⟩ : ∃ m, n = m + 1 := ⟨n - 1, by omega⟩
    obtain ⟨u, rfl⟩ : ∃ u, m = u + 1 := ⟨m - 1, by omega⟩
    rw [show objInner ((key, v) :: fs) (rbraceC :: rest) =
        '"' :: (quoteBodyC key.data ++
          ('"' :: ':' :: (dumpV v ++ fieldsTail fs (rbraceC :: rest)))) from rfl]
    rw [parseObjItems.eq_def]
    have hkey := parseStrBody_quoteBody key.data
      (':' :: (dumpV v ++ fieldsTail fs (rbraceC :: rest)))
    have hcv : parseColonVal (u + 1)
        (':' :: (dumpV v ++ fieldsTail fs (rbraceC :: rest))) =
        some (v, fieldsTail fs (rbraceC :: rest)) := by
      rw [parseColonVal.eq_def]
      have hpv : parseV u (dumpV v ++ fieldsTail fs (rbraceC :: rest)) =
          some (v, fieldsTail fs (rbraceC :: rest)) :=
        hv (key, v) (List.mem_cons_self _ _) u
          (fieldsTail fs (rbraceC :: rest)) (by omega)
      simp [skipWs, isWsC, hpv]
    have hrec := parseObjTail_fieldsTail fs k
      (fun p hp => hv p (List.mem_cons_of_mem _ hp)) (u + 1) rest (by omega)
    simp [skipWs, isWsC, show ('"' == rbraceC) = false by decide,
      show ¬('"' = rbraceC) by decide, hkey, hcv, hrec,
      show String.mk key.data = key from rfl]

theorem parseV_jobj (fs : List (String × JVal)) (k : Nat)
    (hv : ∀ p ∈ fs, ∀ (n : Nat) (rest : List Char), k ≤ n →
        parseV n (dumpV (Prod.snd p) ++ rest) = some (Prod.snd p, rest)) :
    ∀ (n : Nat) (rest : List Char), fs.length + k + 3 ≤ n →
      parseV n (dumpV (.jobj fs) ++ rest) = some (.jobj fs, rest) := by
  intro n rest hn
  obtain ⟨m, rfl⟩ : ∃ m, n = m + 1 := ⟨n - 1, by omega⟩
  rw [show dumpV (.jobj fs) ++ rest = lbraceC :: (dumpFields fs ++ (rbraceC :: rest))
      by simp [dumpV]]
  rw [dumpFields_append, parseV.eq_def]
  have hitems := parseObjItems_objInner fs k hv m rest (by omega)
  simp [skipWs, show isWsC lbraceC = false by decide,
    show (lbraceC == '"') = false by decide, show (lbraceC == lbraceC) = true by decide,
    hitems]

/-- The success payload `GetRecipeOutput.model_dump_json()` produced by the
recipe capability (recipe_mcp_server.py, `get_recipe` returning
`output.model_dump_json()`): an object with exactly the two declared
list-of-string fields of `models.GetRecipeOutput`. -/
def flatJ (out : GetRecipeOutputL) : JVal :=
  .jobj [("required_ingredients", .jarr (out.required_ingredients.map .jstr)),
         ("recipe_steps", .jarr (out.recipe_steps.map .jstr))]

/-- The flat payload as text. -/
def flat_payload_text (out : GetRecipeOutputL) : String := dumpJ (flatJ out)

/-- One serialized `content` envelope around a payload text: the shape the
transport produces and action.py:73-88 unwraps. -/
def contentEnvelope (s : String) : JVal :=
  .jobj [("content", .jarr [.jobj [("type", .jstr "text"), ("text", .jstr s)]])]

/-- The once-more-wrapped payload as text. -/
def wrap_once (s : String) : String := dumpJ (contentEnvelope s)

theorem quoteBodyC_length (cs : List Char) : cs.length ≤ (quoteBodyC cs).length := by
  induction cs with
  | nil => simp [quoteBodyC]
  | cons c cs ih =>
    simp only [quoteBodyC, List.length_append, List.length_cons]
    split
    · simp; omega
    · split
      · simp; omega
      · split <;> simp <;> omega

theorem commaItems_length (l : List String) (acc : List Char) :
    l.length + acc.length ≤ (commaItems l acc).length := by
  induction l with
  | nil => simp [commaItems]
  | cons x xs ih =>
    simp only [commaItems, List.length_cons, List.length_append]
    have := ih
    omega

theorem dumpItems_strings_length (l : List String) :
    l.length ≤ (dumpItems (l.map .jstr)).length := by
  have h := dumpItems_strings l []
  rw [List.append_nil] at h
  rw [h]
  cases l with
  | nil => simp
  | cons x xs =>
    simp only [List.length_cons, List.length_append]
    have h2 := commaItems_length xs []
    simp at h2
    omega

theorem parseJson_flat (out : GetRecipeOutputL) :
    parseJson (flat_payload_text out) = some (flatJ out) := by
  have hk : ∀ p ∈ [(("required_ingredients" : String),
        JVal.jarr (out.required_ingredients.map .jstr)),
        (("recipe_steps" : String), JVal.jarr (out.recipe_steps.map .jstr))],
      ∀ (n : Nat) (rest : List Char),
        out.required_ingredients.length + out.recipe_steps.length + 2 ≤ n →
        parseV n (dumpV (Prod.snd p) ++ rest) = some (Prod.snd p, rest) := by
    intro p hp n rest hn
    simp only [List.mem_cons, List.not_mem_nil, or_false] at hp
    rcases hp with h | h
    · subst h; exact parseV_jarr_strings _ n rest (by omega)
    · subst h; exact parseV_jarr_strings _ n rest (by omega)
  have hlen : out.required_ingredients.length + out.recipe_steps.length + 7 ≤
      2 * (dumpV (flatJ out)).length + 2 := by
    have h1 := dumpItems_strings_length out.required_ingredients
    have h2 := dumpItems_strings_length out.recipe_steps
    simp only [flatJ, dumpV, dumpFields, List.length_cons, List.length_append, quoteC,
      dumpItems]
    omega
  have hp := parseV_jobj _ (out.required_ingredients.length + out.recipe_steps.length + 2)
    hk (2 * (dumpV (flatJ out)).length + 2) []
    (by simp only [flatJ, List.length_cons, List.length_nil] at hlen ⊢; omega)
  rw [List.append_nil] at hp
  have hdata : (flat_payload_text out).data = dumpV (flatJ out) := rfl
  rw [parseJson.eq_def, hdata]
  rw [show (JVal.jobj [(("required_ingredients" : String),
      JVal.jarr (out.required_ingredients.map .jstr)),
      (("recipe_steps" : String), JVal.jarr (out.recipe_steps.map .jstr))]) = flatJ out
    from rfl] at hp
  rw [hp]
  simp [skipWs]

theorem mapM_asString (l : List String) : (l.map JVal.jstr).mapM asString = some l := by
  induction l with
  | nil => rfl
  | cons x xs ih => simp only [List.map_cons, List.mapM_cons, ih, asString]; rfl

theorem asStringList_map (l : List String) :
    asStringList (.jarr (l.map .jstr)) = some l := by
  rw [show asStringList (.jarr (l.map .jstr)) = (l.map JVal.jstr).mapM asString from rfl,
    mapM_asString]

theorem decodeValidate_flat (out : GetRecipeOutputL) :
    decodeValidate (flatJ out) = .ok out := by
  rw [decodeValidate.eq_def]
  simp [validateGetRecipeOutput, flatJ, jlookup, asStringList_map]

theorem decodeUnwrap_flat (out : GetRecipeOutputL) :
    decodeUnwrap (flatJ out) = .ok (flatJ out) := by
  rw [decodeUnwrap.eq_def]
  simp [flatJ, jhasKey, jlookup]

theorem get_recipe_decode_flat (out : GetRecipeOutputL) :
    get_recipe_decode (flat_payload_text out) = .ok out := by
  rw [get_recipe_decode, parseJson_flat]
  simp [decodeUnwrap_flat, decodeValidate_flat]

theorem skipWs_cons_not_ws (c : Char) (cs : List Char) (h : isWsC c = false) :
    skipWs (c :: cs) = c :: cs := by
  simp [skipWs, h]

theorem parseV_inner_obj (s : String) :
    ∀ (n : Nat) (rest : List Char), 6 ≤ n →
      parseV n (dumpV (.jobj [("type", .jstr "text"), ("text", .jstr s)]) ++ rest) =
        some (.jobj [("type", .jstr "text"), ("text", .jstr s)], rest) := by
  intro n rest hn
  refine parseV_jobj _ 1 ?_ n rest (by simpa using hn)
  intro p hp m r hm
  obtain ⟨u, rfl⟩ : ∃ u, m = u + 1 := ⟨m - 1, by omega⟩
  simp only [List.mem_cons, List.not_mem_nil, or_false] at hp
  rcases hp with h | h <;> (subst h; exact parseV_jstr _ u r)

theorem parseV_arr_inner (s : String) :
    ∀ (n : Nat) (rest : List Char), 8 ≤ n →
      parseV n (dumpV (.jarr [.jobj [("type", .jstr "text"), ("text", .jstr s)]]) ++ rest) =
        some (.jarr [.jobj [("type", .jstr "text"), ("text", .jstr s)]], rest) := by
  intro n rest hn
  obtain ⟨m, rfl⟩ : ∃ m, n = m + 1 := ⟨n - 1, by omega⟩
  obtain ⟨u, rfl⟩ : ∃ u, m = u + 1 := ⟨m - 1, by omega⟩
  rw [show dumpV (.jarr [.jobj [("type", .jstr "text"), ("text", .jstr s)]]) ++ rest =
      '[' :: (dumpV (.jobj [("type", .jstr "text"), ("text", .jstr s)]) ++ (']' :: rest))
    by simp [dumpV, dumpItems]]
  rw [parseV.eq_def]
  simp only [skipWs, isWsC]
  simp only [show ('[' == lbraceC) = false by decide, show ('[' == '"') = false by decide,
    show ('[' == '[') = true by decide, Bool.false_eq_true, ite_false, ite_true,
    if_false, if_true,
    show ('[' == ' ' || '[' == Char.ofNat 10 || '[' == Char.ofNat 9 || '[' == Char.ofNat 13) = false
      by decide]
  rw [parseArrItems.eq_def]
  have hobj : parseV u (lbraceC :: (dumpFields [(("type" : String), JVal.jstr "text"),
        (("text" : String), JVal.jstr s)] ++ (rbraceC :: (']' :: rest)))) =
      some (.jobj [("type", .jstr "text"), ("text", .jstr s)], ']' :: rest) := by
    have h := parseV_inner_obj s u (']' :: rest) (by omega)
    rw [show dumpV (.jobj [(("type" : String), JVal.jstr "text"),
        (("text" : String), JVal.jstr s)]) ++ (']' :: rest) =
        lbraceC :: (dumpFields [(("type" : String), JVal.jstr "text"),
          (("text" : String), JVal.jstr s)] ++ (rbraceC :: (']' :: rest)))
      by simp [dumpV]] at h
    exact h
  have htail : parseArrTail u (']' :: rest) = some ([], rest) := by
    obtain ⟨t, rfl⟩ : ∃ t, u = t + 1 := ⟨u - 1, by omega⟩
    rw [parseArrTail.eq_def]
    simp [skipWs, isWsC]
  rw [show dumpV (.jobj [(("type" : String), JVal.jstr "text"),
        (("text" : String), JVal.jstr s)]) ++ (']' :: rest) =
      lbraceC :: (dumpFields [(("type" : String), JVal.jstr "text"),
        (("text" : String), JVal.jstr s)] ++ (rbraceC :: (']' :: rest)))
    by simp [dumpV]]
  dsimp only
  rw [skipWs_cons_not_ws _ _ (by decide)]
  simp [show ¬(lbraceC = ']') by decide, show (lbraceC == ']') = false by decide, hobj, htail]

theorem parseJson_wrap (s : String) :
    parseJson (wrap_once s) = some (contentEnvelope s) := by
  have hk : ∀ p ∈ [(("content" : String),
        JVal.jarr [.jobj [("type", .jstr "text"), ("text", .jstr s)]])],
      ∀ (n : Nat) (rest : List Char), 8 ≤ n →
        parseV n (dumpV (Prod.snd p) ++ rest) = some (Prod.snd p, rest) := by
    intro p hp n rest hn
    simp only [List.mem_cons, List.not_mem_nil, or_false] at hp
    subst hp
    exact parseV_arr_inner s n rest hn
  have hlen : 12 ≤ 2 * (dumpV (contentEnvelope s)).length + 2 := by
    simp only [contentEnvelope, dumpV, dumpFields, quoteC, List.length_cons,
      List.length_append]
    omega
  have hp := parseV_jobj _ 8 hk (2 * (dumpV (contentEnvelope s)).length + 2) []
    (by simp only [contentEnvelope, List.length_cons, List.length_nil] at hlen ⊢; omega)
  rw [List.append_nil] at hp
  have hdata : (wrap_once s).data = dumpV (contentEnvelope s) := rfl
  rw [parseJson.eq_def, hdata]
  rw [show (JVal.jobj [(("content" : String),
      JVal.jarr [.jobj [("type", .jstr "text"), ("text", .jstr s)]])]) = contentEnvelope s
    from rfl] at hp
  rw [hp]
  simp [skipWs]

theorem flat_payload_text_nonempty (out : GetRecipeOutputL) :
    (flat_payload_text out == "") = false := rfl

theorem decodeUnwrap_wrapped (out : GetRecipeOutputL) :
    decodeUnwrap (contentEnvelope (flat_payload_text out)) = .ok (flatJ out) := by
  rw [decodeUnwrap.eq_def]
  simp [contentEnvelope, jhasKey, jlookup, jtruthy, flat_payload_text_nonempty,
    parseJson_flat, flatJ]

theorem get_recipe_decode_wrapped (out : GetRecipeOutputL) :
    get_recipe_decode (wrap_once (flat_payload_text out)) = .ok out := by
  rw [get_recipe_decode, parseJson_wrap]
  simp [decodeUnwrap_wrapped, decodeValidate_flat]

/-- Claim C4: decoding a flat success payload succeeds with that payload, and
decoding the payload wrapped in one more serialized `content` envelope gives
the same result (action.py:63-105: the already-flat payload has no `content`
key, so the unwrap leaves it unchanged and validation succeeds; the wrapped
payload is unwrapped exactly once first). -/
theorem c4_decode_wrap_idempotent (out : GetRecipeOutputL) :
    get_recipe_decode (flat_payload_text out) = .ok out ∧
    get_recipe_decode (wrap_once (flat_payload_text out)) =
      get_recipe_decode (flat_payload_text out) :=
  ⟨get_recipe_decode_flat out,
   by rw [get_recipe_decode_flat, get_recipe_decode_wrapped]⟩

/-! ## C1 — the error marker always stops the decoder -/

/-- The outer error marker of the spec: the parsed payload is an object with
the `error_type` key (action.py:71). -/
def hasOuterErrorMarker : JVal → Bool
  | .jobj fs => jhasKey fs "error_type"
  | _ => false

/-- The nested error marker: the payload carries a serialized `content`
envelope whose first item's non-empty `text` parses to an object with the
`error_type` key (action.py:73-88). -/
def hasNestedErrorMarker : JVal → Bool
  | .jobj fs =>
    match jlookup fs "content" with
    | some (.jarr (first :: _)) =>
      match first with
      | .jobj ffs =>
        match jlookup ffs "text" with
        | some (.jstr s) =>
          !(s == "") &&
            (match parseJson s with
             | some (.jobj ifs) => jhasKey ifs "error_type"
             | _ => false)
        | _ => false
      | _ => false
    | _ => false
  | _ => false

/-- Claim C1: a capability response whose parsed payload carries the error
marker — at the outer level or nested inside the serialized `content`
text — never decodes to a success payload: `get_recipe_decode` reports a
failure. -/
theorem c1_error_marker_never_success (s : String) (v : JVal)
    (hp : parseJson s = some v)
    (hm : (hasOuterErrorMarker v || hasNestedErrorMarker v) = true) :
    ∃ e, get_recipe_decode s = .error e := by
  rw [get_recipe_decode, hp]
  dsimp only
  cases v with
  | jnull => simp [hasOuterErrorMarker, hasNestedErrorMarker] at hm
  | jbool b => simp [hasOuterErrorMarker, hasNestedErrorMarker] at hm
  | jnum l => simp [hasOuterErrorMarker, hasNestedErrorMarker] at hm
  | jstr t => simp [hasOuterErrorMarker, hasNestedErrorMarker] at hm
  | jarr xs => simp [hasOuterErrorMarker, hasNestedErrorMarker] at hm
  | jobj fs =>
    rw [decodeUnwrap.eq_def]
    by_cases hkey : jhasKey fs "error_type" = true
    · simp [hkey]
    · simp only [hasOuterErrorMarker, hasNestedErrorMarker, hkey, Bool.false_or] at hm
      rcases hc : jlookup fs "content" with _ | w
      · rw [hc] at hm; simp at hm
      · rw [hc] at hm
        cases w with
        | jarr items =>
          cases items with
          | nil => simp at hm
          | cons first tail =>
            cases first with
            | jobj ffs =>
              dsimp only at hm
              rcases ht : jlookup ffs "text" with _ | inner
              · rw [ht] at hm; simp at hm
              · rw [ht] at hm
                cases inner with
                | jstr s₂ =>
                  dsimp only at hm
                  simp only [Bool.and_eq_true, Bool.not_eq_true] at hm
                  obtain ⟨hne, hinner⟩ := hm
                  rcases hps : parseJson s₂ with _ | w₂
                  · rw [hps] at hinner; simp at hinner
                  · rw [hps] at hinner
                    cases w₂ with
                    | jobj ifs =>
                      dsimp only at hinner
                      simp [hkey, hc, ht, jtruthy, hne, hps, hinner]
                    | jnull => simp at hinner
                    | jbool b => simp at hinner
                    | jnum l => simp at hinner
                    | jstr t => simp at hinner
                    | jarr xs => simp at hinner
                | jnull => simp at hm
                | jbool b => simp at hm
                | jnum l => simp at hm
                | jarr xs => simp at hm
                | jobj gs => simp at hm
            | jnull => simp at hm
            | jbool b => simp at hm
            | jnum l => simp at hm
            | jstr t => simp at hm
            | jarr ys => simp at hm
        | jnull => simp at hm
        | jbool b => simp at hm
        | jnum l => simp at hm
        | jstr t => simp at hm
        | jobj gs => simp at hm

/-- A concrete failure payload of the recipe service (an `error_type` object,
recipe_mcp_server.py error path), wrapped in one serialized `content`
envelope so the marker sits at the nested level. -/
def c1_nested_error_text : String :=
  wrap_once (dumpJ (.jobj [("error_type", .jstr "RecipeNotFound"),
                           ("message", .jstr "Recipe not found")]))

set_option maxRecDepth 8000 in
/-- Claim C1 (witness): the theorem applied to a concrete response whose
nested payload carries the `error_type` marker. -/
theorem c1_witness :
    (hasOuterErrorMarker (contentEnvelope (dumpJ (.jobj [("error_type", .jstr "RecipeNotFound"),
        ("message", .jstr "Recipe not found")]))) ||
      hasNestedErrorMarker (contentEnvelope (dumpJ (.jobj [("error_type", .jstr "RecipeNotFound"),
        ("message", .jstr "Recipe not found")])))) = true ∧
    (∃ e, get_recipe_decode c1_nested_error_text = .error e) :=
  ⟨by decide,
   c1_error_marker_never_success c1_nested_error_text
     (contentEnvelope (dumpJ (.jobj [("error_type", .jstr "RecipeNotFound"),
       ("message", .jstr "Recipe not found")])))
     (parseJson_wrap _) (by decide)⟩

end GroceryAssistant
